import Mathlib

set_option maxRecDepth 8000

namespace Virgil

/-! Shallow embedding of the VIRGIL backend (`brain.py` and `main.py`):
the rule-based response engine, the decision normalizer applied to the
remote structured-generation payload, and the persistence layer
(durable relational store with per-call failure behaviour, and the
in-process volatile fallback). -/

/-! String helpers mirroring the Python primitives used by the source:
case folding (`.lower()`, modelled on the ASCII range — every lexicon
word the source tests is already lower-case), `.strip()`, substring
containment (`needle in hay`) and `.endswith`. -/

/-- Lower-casing of a single character on the ASCII range. -/
def asciiLowerChar (c : Char) : Char :=
  if 'A' ≤ c ∧ c ≤ 'Z' then Char.ofNat (c.toNat + 32) else c

/-- Case folding of the incoming message. -/
def pyLower (s : String) : String := String.mk (s.toList.map asciiLowerChar)

/-- Whitespace characters removed by the strip step. -/
def isPySpace (c : Char) : Bool :=
  c = ' ' || c = '\t' || c = '\n' || c = '\r' || c = Char.ofNat 11 || c = Char.ofNat 12

/-- Removal of leading and trailing whitespace. -/
def pyStrip (s : String) : String :=
  String.mk (((s.toList.dropWhile isPySpace).reverse.dropWhile isPySpace).reverse)

/-- Character-list version of "needle starts the list". -/
def listStartsWith : List Char → List Char → Bool
  | [], _ => true
  | _ :: _, [] => false
  | a :: as, b :: bs => a = b && listStartsWith as bs

/-- Character-list version of substring containment. -/
def listContains (needle : List Char) : List Char → Bool
  | [] => needle.isEmpty
  | c :: rest => listStartsWith needle (c :: rest) || listContains needle rest

/-- Python `needle in hay` on strings. -/
def strContains (hay needle : String) : Bool := listContains needle.toList hay.toList

/-- Python `hay.endswith(tailStr)`. -/
def strEndsWith (hay tailStr : String) : Bool :=
  listStartsWith tailStr.toList.reverse hay.toList.reverse

/-! JSON values, as produced by parsing the remote service's payload. -/

/-- A parsed JSON value. -/
inductive JVal where
  | null : JVal
  | bool : Bool → JVal
  | num : Int → JVal
  | str : String → JVal
  | arr : List JVal → JVal
  | obj : List (String × JVal) → JVal

mutual

/-- Decidable equality of JSON values. -/
def JVal.deq : (a b : JVal) → Decidable (a = b)
  | .null, .null => isTrue rfl
  | .bool a, .bool b =>
    match decEq a b with
    | isTrue h => isTrue (by rw [h])
    | isFalse h => isFalse (by intro e; injection e; contradiction)
  | .num a, .num b =>
    match decEq a b with
    | isTrue h => isTrue (by rw [h])
    | isFalse h => isFalse (by intro e; injection e; contradiction)
  | .str a, .str b =>
    match decEq a b with
    | isTrue h => isTrue (by rw [h])
    | isFalse h => isFalse (by intro e; injection e; contradiction)
  | .arr a, .arr b =>
    match JVal.deqRow a b with
    | isTrue h => isTrue (by rw [h])
    | isFalse h => isFalse (by intro e; injection e; contradiction)
  | .obj a, .obj b =>
    match JVal.deqTbl a b with
    | isTrue h => isTrue (by rw [h])
    | isFalse h => isFalse (by intro e; injection e; contradiction)
  | .null, .bool _ => isFalse (fun h => JVal.noConfusion h)
  | .null, .num _ => isFalse (fun h => JVal.noConfusion h)
  | .null, .str _ => isFalse (fun h => JVal.noConfusion h)
  | .null, .arr _ => isFalse (fun h => JVal.noConfusion h)
  | .null, .obj _ => isFalse (fun h => JVal.noConfusion h)
  | .bool _, .null => isFalse (fun h => JVal.noConfusion h)
  | .bool _, .num _ => isFalse (fun h => JVal.noConfusion h)
  | .bool _, .str _ => isFalse (fun h => JVal.noConfusion h)
  | .bool _, .arr _ => isFalse (fun h => JVal.noConfusion h)
  | .bool _, .obj _ => isFalse (fun h => JVal.noConfusion h)
  | .num _, .null => isFalse (fun h => JVal.noConfusion h)
  | .num _, .bool _ => isFalse (fun h => JVal.noConfusion h)
  | .num _, .str _ => isFalse (fun h => JVal.noConfusion h)
  | .num _, .arr _ => isFalse (fun h => JVal.noConfusion h)
  | .num _, .obj _ => isFalse (fun h => JVal.noConfusion h)
  | .str _, .null => isFalse (fun h => JVal.noConfusion h)
  | .str _, .bool _ => isFalse (fun h => JVal.noConfusion h)
  | .str _, .num _ => isFalse (fun h => JVal.noConfusion h)
  | .str _, .arr _ => isFalse (fun h => JVal.noConfusion h)
  | .str _, .obj _ => isFalse (fun h => JVal.noConfusion h)
  | .arr _, .null => isFalse (fun h => JVal.noConfusion h)
  | .arr _, .bool _ => isFalse (fun h => JVal.noConfusion h)
  | .arr _, .num _ => isFalse (fun h => JVal.noConfusion h)
  | .arr _, .str _ => isFalse (fun h => JVal.noConfusion h)
  | .arr _, .obj _ => isFalse (fun h => JVal.noConfusion h)
  | .obj _, .null => isFalse (fun h => JVal.noConfusion h)
  | .obj _, .bool _ => isFalse (fun h => JVal.noConfusion h)
  | .obj _, .num _ => isFalse (fun h => JVal.noConfusion h)
  | .obj _, .str _ => isFalse (fun h => JVal.noConfusion h)
  | .obj _, .arr _ => isFalse (fun h => JVal.noConfusion h)

/-- Decidable equality of JSON value lists. -/
def JVal.deqRow : (a b : List JVal) → Decidable (a = b)
  | [], [] => isTrue rfl
  | [], _ :: _ => isFalse (fun h => List.noConfusion h)
  | _ :: _, [] => isFalse (fun h => List.noConfusion h)
  | x :: xs, y :: ys =>
    match JVal.deq x y with
    | isFalse h1 => isFalse (by intro e; injection e; contradiction)
    | isTrue h1 =>
      match JVal.deqRow xs ys with
      | isTrue h2 => isTrue (by rw [h1, h2])
      | isFalse h2 => isFalse (by intro e; injection e; contradiction)

/-- Decidable equality of JSON object field lists. -/
def JVal.deqTbl : (a b : List (String × JVal)) → Decidable (a = b)
  | [], [] => isTrue rfl
  | [], _ :: _ => isFalse (fun h => List.noConfusion h)
  | _ :: _, [] => isFalse (fun h => List.noConfusion h)
  | (k, x) :: xs, (l, y) :: ys =>
    match decEq k l with
    | isFalse h0 => isFalse (by
        intro e
        injection e with e1 e2
        injection e1
        contradiction)
    | isTrue h0 =>
      match JVal.deq x y with
      | isFalse h1 => isFalse (by
          intro e
          injection e with e1 e2
          injection e1
          contradiction)
      | isTrue h1 =>
        match JVal.deqTbl xs ys with
        | isTrue h2 => isTrue (by rw [h0, h1, h2])
        | isFalse h2 => isFalse (by intro e; injection e; contradiction)

end

instance : DecidableEq JVal := JVal.deq

/-- Python truthiness of a JSON-derived value. -/
def pyBool : JVal → Bool
  | .null => false
  | .bool b => b
  | .num n => n != 0
  | .str s => s != ""
  | .arr xs => !xs.isEmpty
  | .obj fs => !fs.isEmpty

/-- Python string coercion of a JSON-derived value. Container values are
rendered with an abbreviated placeholder: the exact rendering is never one
of the mood tokens, which is the only property the development relies on. -/
def pyStr : JVal → String
  | .null => "None"
  | .bool true => "True"
  | .bool false => "False"
  | .num n => toString n
  | .str s => s
  | .arr _ => "<list>"
  | .obj _ => "<dict>"

/-- A conversation turn, as stored in the volatile memory list. -/
structure Turn where
  role : String
  content : String
  deriving DecidableEq

/-- The structured decision returned by the response engine:
(reply, mood, alert, spark, sources). -/
structure Decision where
  reply : String
  mood : String
  alert : Bool
  spark : Bool
  sources : JVal
  deriving DecidableEq

/-! The rule engine of `brain.py`. Both rule paths first fold the message
with `(user_message or "").strip().lower()`. -/

/-- Normalisation applied to the optional incoming message. -/
def normMsg (userMessage : Option String) : String :=
  pyLower (pyStrip (userMessage.getD ""))

/-- Minor-related term together with a sexual-content term. -/
def ruleMinor (m : String) : Bool :=
  strContains m "mineur" &&
    (strContains m "sex" || strContains m "sexe" || strContains m "explicit")

/-- Insistent punctuation: a double question mark or an interrobang. -/
def ruleInsist (m : String) : Bool :=
  strContains m "??" || strContains m "?!"

/-- Greeting lexicon. -/
def greetWords : List String := ["bonjour", "salut", "coucou", "hello", "bonsoir"]

/-- Well-being inquiry lexicon. -/
def howWords : List String :=
  ["comment ça va", "comment ca va", "ça va ?", "ca va ?", "tu vas bien", "vous allez bien"]

/-- Thanks lexicon. -/
def thanksWords : List String := ["merci", "thank you", "thanks"]

/-- Farewell lexicon. -/
def byeWords : List String := ["au revoir", "bye", "à bientôt", "ciao"]

/-- Greeting match. -/
def ruleGreet (m : String) : Bool := greetWords.any (fun w => strContains m w)

/-- Well-being inquiry match. -/
def ruleHow (m : String) : Bool := howWords.any (fun w => strContains m w)

/-- Thanks match. -/
def ruleThanks (m : String) : Bool := thanksWords.any (fun w => strContains m w)

/-- Farewell match. -/
def ruleBye (m : String) : Bool := byeWords.any (fun w => strContains m w)

/-- Trailing single question mark. -/
def ruleQ (m : String) : Bool := strEndsWith m "?"

/-- Single-pass rule evaluation: the if/elif chain of the no-capability
branch of `think`, applied to the folded message. -/
def rulesSingle (m : String) : Decision :=
  if ruleMinor m then
    ⟨"Désolé, sujet refusé. Incident consigné.", "alert", true, false, .arr []⟩
  else if ruleInsist m then
    ⟨"Demande insistante détectée.", "notice", true, true, .arr []⟩
  else if ruleGreet m then
    ⟨"Bonjour ! Comment puis-je vous aider ?", "good", false, false, .arr []⟩
  else if ruleHow m then
    ⟨"Je vais bien, merci ! Et toi ?", "good", false, false, .arr []⟩
  else if ruleThanks m then
    ⟨"Avec plaisir !", "good", false, false, .arr []⟩
  else if ruleBye m then
    ⟨"Au revoir et à bientôt !", "good", false, false, .arr []⟩
  else if ruleQ m then
    ⟨"Voici une réponse concise.", "analyze", false, true, .arr []⟩
  else
    ⟨"Compris.", "good", false, false, .arr []⟩

/-- Degraded two-pass rule evaluation: the sequence of non-exclusive `if`
statements in the exception handler of the remote-call branch of `think`.
Each later match overwrites only the fields it assigns. -/
def rulesTwoPass (m : String) : Decision :=
  let d : Decision := ⟨"Compris.", "good", false, false, .arr []⟩
  let d := if ruleQ m then
    { d with reply := "Voici une réponse concise.", mood := "analyze", spark := true }
  else d
  let d := if ruleInsist m then
    { d with reply := "Demande insistante détectée.", mood := "notice",
             alert := true, spark := true }
  else d
  let d := if ruleMinor m then
    { d with reply := "Désolé, sujet refusé. Incident consigné.", mood := "alert",
             alert := true }
  else d
  d

/-- The no-capability path of `think` (OpenAI unavailable or no API key). -/
def thinkFallback (userMessage : Option String) : Decision :=
  rulesSingle (normMsg userMessage)

/-- The remote-failure path of `think` (the `except` handler). -/
def thinkDegraded (userMessage : Option String) : Decision :=
  rulesTwoPass (normMsg userMessage)

/-! The decision normalizer applied to a successfully parsed JSON object. -/

/-- Python `data.get(key)` on a parsed JSON object (first binding wins). -/
def dictFind (fs : List (String × JVal)) (k : String) : Option JVal :=
  (fs.find? (fun p => p.1 == k)).map (fun p => p.2)

/-- Python `data.get(key, default)`. -/
def dictGet (fs : List (String × JVal)) (k : String) (d : JVal) : JVal :=
  (dictFind fs k).getD d

/-- The seven enumerated mood values. -/
def moodEnum : List String :=
  ["idle", "analyze", "good", "bad", "notice", "alert", "done"]

/-- Field extraction and mood clamping performed on the parsed payload in
the success branch of `think`. -/
def normalize (fs : List (String × JVal)) : Decision :=
  let reply := pyStr (dictGet fs "reply" (.str "Compris."))
  let mood := pyStr (dictGet fs "mood" (.str "done"))
  let alert := pyBool (dictGet fs "alert" (.bool false))
  let spark := pyBool (dictGet fs "spark" (.bool (mood == "analyze" || mood == "notice")))
  let sources := let s := dictGet fs "sources" (.arr []); if pyBool s then s else .arr []
  let mood := if moodEnum.contains mood then mood else "done"
  ⟨reply, mood, alert, spark, sources⟩

/-- Outcome of the remote structured-generation call: either an exception
anywhere up to and including JSON parsing, or a parsed JSON value. -/
inductive RemoteResult where
  | failure : RemoteResult
  | success : JVal → RemoteResult

/-- The full `think` function. `configured` is the conjunction of the
client import succeeding and the API key being present. A successful call
whose payload is not a JSON object raises at the first attribute access
and lands in the same exception handler as a failed call. The history
argument only feeds the remote prompt and never affects the result. -/
def think (configured : Bool) (remote : RemoteResult) (userMessage : Option String)
    (_history : List Turn) : Decision :=
  if !configured then thinkFallback userMessage
  else
    match remote with
    | .failure => thinkDegraded userMessage
    | .success v =>
      match v with
      | .obj fs => normalize fs
      | _ => thinkDegraded userMessage

/-! The persistence layer of `main.py`. Timestamps are passed explicitly.
A `DbBeh` value fixes, for one façade call, the behaviour of the durable
store: the outcome of the `db_ok` probe, whether opening the connection
raises, and at which cursor action (execute or commit, counted from the
first) an exception is raised, if any. Durable operations also return the
sequence of connection events they perform, so that connection release can
be stated. On an error the pre-call table state is kept (no commit ran). -/

/-- A row of the logs table, also the shape of a volatile log entry. -/
structure LogEntry where
  ts : Nat
  mood : String
  message : String
  reply : String
  alert : Bool
  refused : Bool
  deriving DecidableEq

/-- A row of the alerts table, also the shape of a volatile alert entry. -/
structure AlertEntry where
  ts : Nat
  mood : String
  message : String
  deriving DecidableEq

/-- A row of the memory table. -/
structure MemRow where
  ts : Nat
  role : String
  content : String
  deriving DecidableEq

/-- The in-memory fallback lists `logs_mem`, `alerts_mem`, `memory_mem`. -/
structure VolState where
  logs_mem : List LogEntry
  alerts_mem : List AlertEntry
  memory_mem : List Turn
  deriving DecidableEq

/-- The durable store's tables, each in insertion (id) order. -/
structure DbState where
  logsTable : List LogEntry
  alertsTable : List AlertEntry
  memoryTable : List MemRow
  deriving DecidableEq

/-- Durable-store behaviour for one façade call. -/
structure DbBeh where
  ok : Bool
  connFails : Bool
  failAt : Option Nat
  deriving DecidableEq

/-- Connection lifecycle events of one durable operation. -/
inductive ConnEvent where
  | opened : ConnEvent
  | closed : ConnEvent
  deriving DecidableEq

/-- Run a sequence of cursor actions, raising at the action indexed by
`failAt` when present. -/
def runSteps : Option Nat → List (DbState → DbState) → DbState → Except Unit DbState
  | _, [], db => .ok db
  | some 0, _ :: _, _ => .error ()
  | some (n + 1), s :: rest, db => runSteps (some n) rest (s db)
  | none, s :: rest, db => runSteps none rest (s db)

/-- Python tail slice `l[-limit:]` for an arbitrary integer `limit`. -/
def pyLastSlice (limit : Int) (l : List α) : List α :=
  if 0 < limit then l.drop (l.length - limit.toNat) else l.drop ((-limit).toNat)

/-- Append a log entry (and, when flagged, an alert entry) to the
volatile lists. -/
def log_event_local (ts : Nat) (vol : VolState) (msg reply mood : String)
    (alert refused : Bool) : VolState :=
  let vol := { vol with logs_mem := vol.logs_mem ++ [⟨ts, mood, msg, reply, alert, refused⟩] }
  if alert then { vol with alerts_mem := vol.alerts_mem ++ [⟨ts, mood, msg⟩] } else vol

/-- Durable log insert: open a connection, lazily create the logs and
alerts tables, insert the log row, conditionally the alert row, commit,
close. An exception at any action exits without reaching the close. -/
def log_event_db (beh : DbBeh) (ts : Nat) (db : DbState) (msg reply mood : String)
    (alert refused : Bool) : Except Unit DbState × List ConnEvent :=
  if beh.connFails then (.error (), []) else
  let noopStep : DbState → DbState := fun d => d
  let insertLog : DbState → DbState := fun d =>
    { d with logsTable := d.logsTable ++ [⟨ts, mood, msg, reply, alert, refused⟩] }
  let insertAlert : DbState → DbState := fun d =>
    { d with alertsTable := d.alertsTable ++ [⟨ts, mood, msg⟩] }
  let steps : List (DbState → DbState) :=
    [noopStep, noopStep, insertLog] ++ (if alert then [insertAlert] else []) ++ [noopStep]
  match runSteps beh.failAt steps db with
  | .ok db2 => (.ok db2, [.opened, .closed])
  | .error e => (.error e, [.opened])

/-- The façade `log_event`: durable when the probe succeeds, with any
exception of the durable attempt caught and redirected to the volatile
store for this call. -/
def log_event (beh : DbBeh) (ts : Nat) (vol : VolState) (db : DbState)
    (msg reply mood : String) (alert refused : Bool) : Except Unit (VolState × DbState) :=
  if beh.ok then
    match (log_event_db beh ts db msg reply mood alert refused).1 with
    | .ok db2 => .ok (vol, db2)
    | .error _ => .ok (log_event_local ts vol msg reply mood alert refused, db)
  else .ok (log_event_local ts vol msg reply mood alert refused, db)

/-- Volatile memory append with the 50-entry cap (append, then drop the
oldest entry when the length exceeds 50). -/
def memory_add_local (mem : List Turn) (t : Turn) : List Turn :=
  let m := mem ++ [t]
  if 50 < m.length then m.drop 1 else m

/-- Durable memory insert: create the memory table, insert, commit. -/
def memory_add_db (beh : DbBeh) (ts : Nat) (db : DbState) (role content : String) :
    Except Unit DbState × List ConnEvent :=
  if beh.connFails then (.error (), []) else
  let noopStep : DbState → DbState := fun d => d
  let insertMem : DbState → DbState := fun d =>
    { d with memoryTable := d.memoryTable ++ [⟨ts, role, content⟩] }
  let steps : List (DbState → DbState) := [noopStep, insertMem, noopStep]
  match runSteps beh.failAt steps db with
  | .ok db2 => (.ok db2, [.opened, .closed])
  | .error e => (.error e, [.opened])

/-- The façade `memory_add`: volatile when the probe fails; otherwise the
durable insert runs with no exception handler around it. -/
def memory_add (beh : DbBeh) (ts : Nat) (vol : VolState) (db : DbState)
    (role content : String) : Except Unit (VolState × DbState) :=
  if !beh.ok then
    .ok ({ vol with memory_mem := memory_add_local vol.memory_mem ⟨role, content⟩ }, db)
  else
    match (memory_add_db beh ts db role content).1 with
    | .ok db2 => .ok (vol, db2)
    | .error e => .error e

/-- Durable memory select: newest `limit` rows by descending id, then
re-reversed to chronological order and projected to role and content. A
negative limit raises in the store. -/
def memory_fetch_db (beh : DbBeh) (db : DbState) (limit : Int) :
    Except Unit (List Turn) × List ConnEvent :=
  if beh.connFails then (.error (), []) else
  if beh.failAt = some 0 ∨ limit < 0 then (.error (), [.opened]) else
  (.ok (((db.memoryTable.reverse.take limit.toNat).reverse).map
      (fun r => ⟨r.role, r.content⟩)), [.opened, .closed])

/-- The façade `memory_fetch`: the volatile branch returns the tail slice
of the volatile memory list; the durable branch runs with no exception
handler around it. -/
def memory_fetch (beh : DbBeh) (vol : VolState) (db : DbState) (limit : Int) :
    Except Unit (List Turn) :=
  if !beh.ok then .ok (pyLastSlice limit vol.memory_mem)
  else
    match (memory_fetch_db beh db limit).1 with
    | .ok rows => .ok rows
    | .error e => .error e

/-- Durable alerts select, newest `limit` rows first. -/
def get_alerts_db (beh : DbBeh) (db : DbState) (limit : Int) :
    Except Unit (List AlertEntry) :=
  if beh.connFails then .error () else
  if beh.failAt = some 0 ∨ limit < 0 then .error () else
  .ok (db.alertsTable.reverse.take limit.toNat)

/-- The endpoint body `get_alerts`: durable attempt with every exception
caught, volatile tail slice reversed otherwise. -/
def get_alerts (beh : DbBeh) (vol : VolState) (db : DbState) (limit : Int) :
    Except Unit (List AlertEntry) :=
  if beh.ok then
    match get_alerts_db beh db limit with
    | .ok rows => .ok rows
    | .error _ => .ok ((pyLastSlice limit vol.alerts_mem).reverse)
  else .ok ((pyLastSlice limit vol.alerts_mem).reverse)

/-- Durable alert count. -/
def get_alerts_count_db (beh : DbBeh) (db : DbState) : Except Unit Nat :=
  if beh.connFails then .error () else
  if beh.failAt = some 0 then .error () else
  .ok db.alertsTable.length

/-- The endpoint body `get_alerts_count`. -/
def get_alerts_count (beh : DbBeh) (vol : VolState) (db : DbState) : Except Unit Nat :=
  if beh.ok then
    match get_alerts_count_db beh db with
    | .ok c => .ok c
    | .error _ => .ok vol.alerts_mem.length
  else .ok vol.alerts_mem.length

/-- Durable logs select, newest `limit` rows first. -/
def get_logs_db (beh : DbBeh) (db : DbState) (limit : Int) :
    Except Unit (List LogEntry) :=
  if beh.connFails then .error () else
  if beh.failAt = some 0 ∨ limit < 0 then .error () else
  .ok (db.logsTable.reverse.take limit.toNat)

/-- The endpoint body `get_logs`: durable attempt with every exception
caught, volatile tail slice reversed otherwise. -/
def get_logs (beh : DbBeh) (vol : VolState) (db : DbState) (limit : Int) :
    Except Unit (List LogEntry) :=
  if beh.ok then
    match get_logs_db beh db limit with
    | .ok rows => .ok rows
    | .error _ => .ok ((pyLastSlice limit vol.logs_mem).reverse)
  else .ok ((pyLastSlice limit vol.logs_mem).reverse)

/-- Empty volatile state. -/
def volEmpty : VolState := ⟨[], [], []⟩

/-- Empty durable state. -/
def dbEmpty : DbState := ⟨[], [], []⟩

/-! Theorems. -/

/-- C10: when no remote capability is configured, `think` accepts a `None`
or empty user message without raising and returns the default decision:
the acknowledgement reply, mood good, no alert, no spark, empty sources —
for any remote behaviour and any history. -/
theorem think_default_on_empty (remote : RemoteResult) (history : List Turn) :
    think false remote none history = ⟨"Compris.", "good", false, false, .arr []⟩ ∧
    think false remote (some "") history = ⟨"Compris.", "good", false, false, .arr []⟩ :=
  ⟨rfl, rfl⟩

/-- C9: on every input, the single-pass rule engine returns a decision in
which the alert flag holds exactly when the mood is alert or notice, the
spark flag holds exactly when the mood is analyze or notice, and the
sources sequence is empty. -/
theorem rules_single_invariants (msg : Option String) :
    ((thinkFallback msg).alert = true ↔
      (thinkFallback msg).mood = "alert" ∨ (thinkFallback msg).mood = "notice") ∧
    ((thinkFallback msg).spark = true ↔
      (thinkFallback msg).mood = "analyze" ∨ (thinkFallback msg).mood = "notice") ∧
    (thinkFallback msg).sources = .arr [] := by
  unfold thinkFallback rulesSingle
  split_ifs <;> decide

/-- C5: on every input whose folded text contains a minor-related term and
a sexual-content term, the single-pass rule engine yields an alert with
mood alert, regardless of any other content of the text. -/
theorem minor_rule_dominates (msg : Option String)
    (h : ruleMinor (normMsg msg) = true) :
    (thinkFallback msg).alert = true ∧ (thinkFallback msg).mood = "alert" := by
  simp [thinkFallback, rulesSingle, h]

/-- Witness for C5 at an input that also contains a double question mark. -/
theorem minor_rule_dominates_witness :
    ruleMinor (normMsg (some "mineur sexe ??")) = true ∧
    ((thinkFallback (some "mineur sexe ??")).alert = true ∧
     (thinkFallback (some "mineur sexe ??")).mood = "alert") :=
  ⟨by decide, minor_rule_dominates (some "mineur sexe ??") (by decide)⟩

/-- C6 counterexample: an input containing a double question mark together
with a minor-related and a sexual-content term gets mood alert, not
notice, on both rule paths — the minors rule dominates the insistent
punctuation rule. -/
theorem insist_rule_cex :
    ruleInsist (normMsg (some "mineur sexe ??")) = true ∧
    (thinkFallback (some "mineur sexe ??")).mood ≠ "notice" ∧
    (thinkDegraded (some "mineur sexe ??")).mood ≠ "notice" := by decide

/-- C6 amended: on every input whose folded text contains a double
question mark or an interrobang and does not match the minors rule, both
rule paths yield mood notice, alert and spark, even when the text also
ends in a single question mark. -/
theorem insist_rule_holds (msg : Option String)
    (h2 : ruleInsist (normMsg msg) = true) (h1 : ruleMinor (normMsg msg) = false) :
    (thinkFallback msg).mood = "notice" ∧ (thinkFallback msg).alert = true ∧
    (thinkFallback msg).spark = true ∧
    (thinkDegraded msg).mood = "notice" ∧ (thinkDegraded msg).alert = true ∧
    (thinkDegraded msg).spark = true := by
  simp [thinkFallback, rulesSingle, thinkDegraded, rulesTwoPass, h1, h2]

/-- Witness for the amended C6 at an input ending in a question mark. -/
theorem insist_rule_holds_witness :
    ruleInsist (normMsg (some "Es-tu sûr ??")) = true ∧
    ruleMinor (normMsg (some "Es-tu sûr ??")) = false ∧
    ((thinkFallback (some "Es-tu sûr ??")).mood = "notice" ∧
     (thinkFallback (some "Es-tu sûr ??")).alert = true ∧
     (thinkFallback (some "Es-tu sûr ??")).spark = true ∧
     (thinkDegraded (some "Es-tu sûr ??")).mood = "notice" ∧
     (thinkDegraded (some "Es-tu sûr ??")).alert = true ∧
     (thinkDegraded (some "Es-tu sûr ??")).spark = true) :=
  ⟨by decide, by decide, insist_rule_holds (some "Es-tu sûr ??") (by decide) (by decide)⟩

/-- C2 counterexample: on the greeting input the degraded two-pass
evaluation and the single-pass engine return different decision tuples,
because the two-pass path has no greeting rule. -/
theorem two_pass_cex :
    thinkDegraded (some "bonjour") ≠ thinkFallback (some "bonjour") := by decide

/-- The exact condition under which the degraded two-pass evaluation
agrees with the single-pass engine on the folded text: a minors-rule
match must come with neither insistent punctuation nor a trailing
question mark, and a lexicon match (greeting, well-being, thanks,
farewell) must be pre-empted by the minors or insistence rule. -/
def twoPassAgrees (m : String) : Prop :=
  (ruleMinor m = true → ruleInsist m = false ∧ ruleQ m = false) ∧
  (ruleGreet m = true ∨ ruleHow m = true ∨ ruleThanks m = true ∨ ruleBye m = true →
    ruleMinor m = true ∨ ruleInsist m = true)

/-- C2 amended: on every input, the degraded two-pass evaluation returns
the same decision tuple as the single-pass engine exactly when the folded
text satisfies the agreement condition; the two paths are not equivalent
in general. -/
theorem two_pass_agree_iff (msg : Option String) :
    thinkDegraded msg = thinkFallback msg ↔ twoPassAgrees (normMsg msg) := by
  unfold thinkDegraded thinkFallback twoPassAgrees
  generalize normMsg msg = m
  cases h1 : ruleMinor m <;> cases h2 : ruleInsist m <;> cases h3 : ruleGreet m <;>
    cases h4 : ruleHow m <;> cases h5 : ruleThanks m <;> cases h6 : ruleBye m <;>
      cases h7 : ruleQ m <;>
        simp [rulesSingle, rulesTwoPass, h1, h2, h3, h4, h5, h6, h7]

/-- Witness for the amended C2 at a plain input on which both paths
return the default decision. -/
theorem two_pass_agree_witness :
    thinkDegraded (some "ok") = thinkFallback (some "ok") :=
  (two_pass_agree_iff (some "ok")).mpr (by unfold twoPassAgrees; decide)

/-- C7: on every parsed JSON object the normalization step produces a
mood inside the seven-value enumeration, coercing any out-of-set
extracted mood to done; a missing alert field defaults to false, a
missing sources field to the empty sequence, and a missing spark field to
true exactly when the extracted mood is analyze or notice. -/
theorem normalize_clamps (fs : List (String × JVal)) :
    (normalize fs).mood ∈ moodEnum ∧
    (pyStr (dictGet fs "mood" (.str "done")) ∉ moodEnum →
      (normalize fs).mood = "done") ∧
    (dictFind fs "alert" = none → (normalize fs).alert = false) ∧
    (dictFind fs "sources" = none → (normalize fs).sources = .arr []) ∧
    (dictFind fs "spark" = none →
      ((normalize fs).spark = true ↔
        pyStr (dictGet fs "mood" (.str "done")) = "analyze" ∨
        pyStr (dictGet fs "mood" (.str "done")) = "notice")) := by
  refine ⟨?_, ?_, ?_, ?_, ?_⟩
  · by_cases h : pyStr (dictGet fs "mood" (.str "done")) ∈ moodEnum
    · have hm : (normalize fs).mood = pyStr (dictGet fs "mood" (.str "done")) := by
        simp [normalize, h]
      rw [hm]
      exact h
    · have hm : (normalize fs).mood = "done" := by
        simp [normalize, h]
      rw [hm]
      decide
  · intro h
    simp [normalize, h]
  · intro h
    simp [normalize, dictGet, h, pyBool]
  · intro h
    simp [normalize, dictGet, h, pyBool]
  · intro h
    simp [normalize, dictGet, h, pyBool]

/-- Witness for C7 on a payload carrying only an out-of-set mood. -/
theorem normalize_clamps_witness :
    (normalize [("mood", JVal.str "surprised")]).mood ∈ moodEnum ∧
    (normalize [("mood", JVal.str "surprised")]).mood = "done" ∧
    (normalize [("mood", JVal.str "surprised")]).alert = false ∧
    (normalize [("mood", JVal.str "surprised")]).sources = .arr [] ∧
    ((normalize [("mood", JVal.str "surprised")]).spark = true ↔
      pyStr (dictGet [("mood", JVal.str "surprised")] "mood" (.str "done")) = "analyze" ∨
      pyStr (dictGet [("mood", JVal.str "surprised")] "mood" (.str "done")) = "notice") :=
  ⟨(normalize_clamps [("mood", JVal.str "surprised")]).1,
   (normalize_clamps [("mood", JVal.str "surprised")]).2.1 (by decide),
   (normalize_clamps [("mood", JVal.str "surprised")]).2.2.1 (by decide),
   (normalize_clamps [("mood", JVal.str "surprised")]).2.2.2.1 (by decide),
   (normalize_clamps [("mood", JVal.str "surprised")]).2.2.2.2 (by decide)⟩

/-- Folding volatile memory appends from the empty list keeps exactly the
newest fifty entries. -/
theorem memory_add_local_fold (es : List Turn) :
    List.foldl memory_add_local [] es = es.drop (es.length - 50) := by
  induction es using List.reverseRecOn with
  | nil => rfl
  | append_singleton xs x ih =>
    rw [List.foldl_append, List.foldl_cons, List.foldl_nil, ih]
    rcases Nat.lt_or_ge xs.length 50 with hl | hl
    · have h1 : xs.length - 50 = 0 := by omega
      have h2 : (xs ++ [x]).length - 50 = 0 := by
        simp only [List.length_append, List.length_cons, List.length_nil]
        omega
      rw [h1, List.drop_zero, h2, List.drop_zero]
      show (if 50 < (xs ++ [x]).length then (xs ++ [x]).drop 1 else xs ++ [x]) = xs ++ [x]
      rw [if_neg]
      simp only [List.length_append, List.length_cons, List.length_nil]
      omega
    · have hd : (xs.drop (xs.length - 50)).length = 50 := by
        rw [List.length_drop]; omega
      show (if 50 < (xs.drop (xs.length - 50) ++ [x]).length
            then (xs.drop (xs.length - 50) ++ [x]).drop 1
            else xs.drop (xs.length - 50) ++ [x]) =
          (xs ++ [x]).drop ((xs ++ [x]).length - 50)
      rw [if_pos (by
        simp only [List.length_append, List.length_cons, List.length_nil, hd]
        omega)]
      rw [List.drop_append_of_le_length (by rw [hd]; omega)]
      rw [List.drop_drop]
      have hidx : (xs ++ [x]).length - 50 = xs.length + 1 - 50 := by
        simp only [List.length_append, List.length_cons, List.length_nil]
      rw [hidx, List.drop_append_of_le_length (by omega)]
      have hix : xs.length - 50 + 1 = xs.length + 1 - 50 := by omega
      rw [hix]

/-- C8: the volatile memory store retains at most fifty entries, evicting
the oldest first: appending sixty entries in sequence from the empty
store leaves exactly the last fifty appended entries in their original
relative order. -/
theorem volatile_memory_cap (es : List Turn) (h : es.length = 60) :
    List.foldl memory_add_local [] es = es.drop 10 := by
  have hfold := memory_add_local_fold es
  rw [h] at hfold
  simpa using hfold

/-- Sixty concrete conversation turns. -/
def turns60 : List Turn := (List.range 60).map (fun i => ⟨"user", toString i⟩)

/-- Witness for C8 on sixty concrete entries. -/
theorem volatile_memory_cap_witness :
    turns60.length = 60 ∧ List.foldl memory_add_local [] turns60 = turns60.drop 10 :=
  ⟨by decide, volatile_memory_cap turns60 (by decide)⟩

/-- Reversing the positive Python tail slice gives the newest entries
first. -/
theorem pyLastSlice_reverse {α : Type} (limit : Int) (hl : 0 < limit) (l : List α) :
    (pyLastSlice limit l).reverse = l.reverse.take limit.toNat := by
  unfold pyLastSlice
  rw [if_pos hl, List.reverse_drop]
  rcases le_or_lt limit.toNat l.length with h | h
  · have h1 : l.length - (l.length - limit.toNat) = limit.toNat := by omega
    rw [h1]
  · have h1 : l.length - (l.length - limit.toNat) = l.length := by omega
    rw [h1, ← List.length_reverse l, List.take_length,
      List.take_of_length_le (by rw [List.length_reverse]; omega)]

/-- C3 counterexample: on a volatile store holding an older and a newer
entry, the logs listing returns the newer entry first — descending, not
ascending, chronological order. -/
theorem get_logs_order_cex :
    get_logs ⟨false, false, none⟩
        { volEmpty with logs_mem := [⟨0, "good", "a", "ra", false, false⟩,
                                     ⟨1, "good", "b", "rb", false, false⟩] }
        dbEmpty 2 =
      .ok [⟨1, "good", "b", "rb", false, false⟩, ⟨0, "good", "a", "ra", false, false⟩] ∧
    ([⟨1, "good", "b", "rb", false, false⟩, ⟨0, "good", "a", "ra", false, false⟩] :
        List LogEntry) ≠
      [⟨0, "good", "a", "ra", false, false⟩, ⟨1, "good", "b", "rb", false, false⟩] :=
  ⟨rfl, by decide⟩

/-- C3 amended: for every positive limit, the logs listing returns the
newest entries, at most limit many, in descending chronological order
(newest first), identically on the volatile backend (tail slice, then
reversed) and on the successful durable backend (selected by descending
id and returned as fetched, with no re-reversal). -/
theorem get_logs_newest_first (l : List LogEntry) (vol : VolState) (db : DbState)
    (cf : Bool) (fa : Option Nat) (limit : Int) (hl : 1 ≤ limit) :
    get_logs ⟨false, cf, fa⟩ { vol with logs_mem := l } db limit =
      .ok (l.reverse.take limit.toNat) ∧
    get_logs ⟨true, false, none⟩ vol { db with logsTable := l } limit =
      .ok (l.reverse.take limit.toNat) ∧
    (l.Pairwise (fun a b => a.ts ≤ b.ts) →
      (l.reverse.take limit.toNat).Pairwise (fun a b => b.ts ≤ a.ts)) := by
  refine ⟨?_, ?_, ?_⟩
  · simp only [get_logs]
    rw [if_neg (by simp)]
    rw [pyLastSlice_reverse limit (by omega) l]
  · simp only [get_logs, get_logs_db]
    rw [if_pos (by simp)]
    rw [if_neg (by simp)]
    rw [if_neg (by simp; omega)]
  · intro hp
    have hrev : l.reverse.Pairwise (fun a b => b.ts ≤ a.ts) :=
      List.pairwise_reverse.mpr hp
    exact hrev.sublist (List.take_sublist _ _)

/-- Witness for the amended C3 on two chronological entries. -/
theorem get_logs_newest_first_witness :
    get_logs ⟨false, false, none⟩
        { volEmpty with logs_mem := [⟨0, "good", "a", "ra", false, false⟩,
                                     ⟨1, "good", "b", "rb", false, false⟩] }
        dbEmpty 2 =
      .ok (([⟨0, "good", "a", "ra", false, false⟩,
             ⟨1, "good", "b", "rb", false, false⟩] : List LogEntry).reverse.take
            (2 : Int).toNat) ∧
    get_logs ⟨true, false, none⟩ volEmpty
        { dbEmpty with logsTable := [⟨0, "good", "a", "ra", false, false⟩,
                                     ⟨1, "good", "b", "rb", false, false⟩] } 2 =
      .ok (([⟨0, "good", "a", "ra", false, false⟩,
             ⟨1, "good", "b", "rb", false, false⟩] : List LogEntry).reverse.take
            (2 : Int).toNat) ∧
    (([⟨0, "good", "a", "ra", false, false⟩,
       ⟨1, "good", "b", "rb", false, false⟩] : List LogEntry).reverse.take
        (2 : Int).toNat).Pairwise (fun a b => b.ts ≤ a.ts) :=
  ⟨(get_logs_newest_first [⟨0, "good", "a", "ra", false, false⟩,
      ⟨1, "good", "b", "rb", false, false⟩] volEmpty dbEmpty false none 2 (by decide)).1,
   (get_logs_newest_first [⟨0, "good", "a", "ra", false, false⟩,
      ⟨1, "good", "b", "rb", false, false⟩] volEmpty dbEmpty false none 2 (by decide)).2.1,
   (get_logs_newest_first [⟨0, "good", "a", "ra", false, false⟩,
      ⟨1, "good", "b", "rb", false, false⟩] volEmpty dbEmpty false none 2 (by decide)).2.2
     (by decide)⟩

/-- True exactly on a normally returned value. -/
def exceptOk : Except ε α → Bool
  | .ok _ => true
  | .error _ => false

/-- C1 counterexample: after a successful reachability probe, an
exception raised during the attempted durable operation propagates out of
memory_add and memory_fetch instead of being redirected to the volatile
store. -/
theorem memory_raises_cex :
    memory_add ⟨true, false, some 0⟩ 0 volEmpty dbEmpty "user" "hi" = .error () ∧
    memory_fetch ⟨true, false, some 0⟩ volEmpty dbEmpty 8 = .error () :=
  ⟨rfl, rfl⟩

/-- C1 amended: log_event and the alerts and logs listing and counting
operations return normally for every store behaviour, redirecting to the
volatile store on any durable failure; memory_add and memory_fetch return
normally whenever the reachability probe fails, but have no handler
around the durable attempt itself. -/
theorem facade_fail_open (beh : DbBeh) (ts : Nat) (vol : VolState) (db : DbState)
    (msg reply mood role content : String) (alert refused : Bool) (limit : Int) :
    exceptOk (log_event beh ts vol db msg reply mood alert refused) = true ∧
    exceptOk (get_alerts beh vol db limit) = true ∧
    exceptOk (get_alerts_count beh vol db) = true ∧
    exceptOk (get_logs beh vol db limit) = true ∧
    (beh.ok = false →
      exceptOk (memory_add beh ts vol db role content) = true ∧
      exceptOk (memory_fetch beh vol db limit) = true) := by
  refine ⟨?_, ?_, ?_, ?_, fun hok => ⟨?_, ?_⟩⟩
  · unfold log_event
    split
    · split <;> rfl
    · rfl
  · unfold get_alerts
    split
    · split <;> rfl
    · rfl
  · unfold get_alerts_count
    split
    · split <;> rfl
    · rfl
  · unfold get_logs
    split
    · split <;> rfl
    · rfl
  · unfold memory_add
    rw [hok]
    rfl
  · unfold memory_fetch
    rw [hok]
    rfl

/-- Witness for the amended C1: with an unreachable store both memory
operations return normally through the volatile store. -/
theorem facade_fail_open_witness :
    exceptOk (memory_add ⟨false, false, none⟩ 0 volEmpty dbEmpty "user" "hi") = true ∧
    exceptOk (memory_fetch ⟨false, false, none⟩ volEmpty dbEmpty 8) = true :=
  (facade_fail_open ⟨false, false, none⟩ 0 volEmpty dbEmpty "m" "r" "good" "user" "hi"
    false false 8).2.2.2.2 rfl

/-- C4: connection accounting of the durable operations. When the first
schema-creation, insert, or select action raises, the operation exits
having opened its connection without ever closing it; only the
exception-free runs close the connection. -/
theorem conn_not_closed_on_error :
    (log_event_db ⟨true, false, some 0⟩ 0 dbEmpty "m" "r" "good" false false).2 =
      [ConnEvent.opened] ∧
    (memory_add_db ⟨true, false, some 1⟩ 0 dbEmpty "user" "hi").2 = [ConnEvent.opened] ∧
    (memory_fetch_db ⟨true, false, some 0⟩ dbEmpty 8).2 = [ConnEvent.opened] ∧
    (log_event_db ⟨true, false, none⟩ 0 dbEmpty "m" "r" "good" false false).2 =
      [ConnEvent.opened, ConnEvent.closed] ∧
    (memory_add_db ⟨true, false, none⟩ 0 dbEmpty "user" "hi").2 =
      [ConnEvent.opened, ConnEvent.closed] ∧
    (memory_fetch_db ⟨true, false, none⟩ dbEmpty 8).2 =
      [ConnEvent.opened, ConnEvent.closed] :=
  ⟨rfl, rfl, rfl, rfl, rfl, rfl⟩

end Virgil
